import Mathlib

/-!
Verification development for the mission-poll subsystem of a guild-management
bot.  Python strings are modelled as `List Char` (Python `len` counts code
points), machine integers as `Nat`/`Int`, database rows as structures, and
every fallible or I/O-dependent step as an explicit environment parameter.
Definitions translate `services/mission_poll_service.py`,
`services/mission_poll_repository.py`, `services/forum_tag_service.py`,
`services/event_repository.py` and `commands/mission_poll_command.py`.
-/

set_option maxHeartbeats 1000000

namespace GolBot

/-! ### Python string primitives -/

/-- Characters stripped by Python `str.strip()` and matched by regex `\s`. -/
def pyIsSpace (c : Char) : Bool :=
  c = ' ' || c = '\t' || c = '\n' || c = '\r' || c.toNat = 11 || c.toNat = 12

/-- Python `str.strip()`: drop leading and trailing whitespace. -/
def pyStrip (s : List Char) : List Char :=
  ((s.dropWhile pyIsSpace).reverse.dropWhile pyIsSpace).reverse

/-- Lower-case every character (model of Python `str.lower()`). -/
def lowerList (s : List Char) : List Char := s.map Char.toLower

/-! ### Decimal digits and the JSON integer-array codec

`json.dumps(list_of_ints)` produces `"[a, b, c]"` (separator `", "`);
`json.loads` parses it back.  The codec below models exactly that wire
format for lists of non-negative integers. -/

/-- Decimal digits with explicit fuel; `fuel ≥ n` always suffices because
the argument shrinks by a factor of ten each step. -/
def digitsOfFuel : Nat → Nat → List Nat
  | 0, n => [n]
  | fuel + 1, n => if n < 10 then [n] else digitsOfFuel fuel (n / 10) ++ [n % 10]

/-- Decimal digits of `n`, most significant first. -/
def digitsOf (n : Nat) : List Nat := digitsOfFuel n n

/-- Character for a single decimal digit. -/
def digitChar (d : Nat) : Char := Char.ofNat (48 + d)

/-- Decimal representation of `n` as characters. -/
def encodeNat (n : Nat) : List Char := (digitsOf n).map digitChar

/-- Join pieces with `", "`, as `json.dumps` does for arrays. -/
def joinCommaSpace : List (List Char) → List Char
  | [] => []
  | [x] => x
  | x :: xs => x ++ ',' :: ' ' :: joinCommaSpace xs

/-- Split a character list at every comma. -/
def splitComma : List Char → List (List Char)
  | [] => [[]]
  | c :: rest =>
    if c = ',' then [] :: splitComma rest
    else
      match splitComma rest with
      | [] => [[c]]
      | g :: gs => (c :: g) :: gs

/-- Parse a non-empty all-digit character list as a natural number. -/
def parseNat (cs : List Char) : Option Nat :=
  if cs ≠ [] ∧ cs.all (fun c => 48 ≤ c.toNat && c.toNat ≤ 57) then
    some (cs.foldl (fun a c => a * 10 + (c.toNat - 48)) 0)
  else none

/-- Serialize a list of naturals in the `json.dumps` array format. -/
def encodeIntList (l : List Nat) : List Char :=
  '[' :: joinCommaSpace (l.map encodeNat) ++ [']']

/-- Parse the pieces between commas, stripping surrounding whitespace. -/
def decodePieces : List (List Char) → Option (List Nat)
  | [] => some []
  | p :: ps =>
    match parseNat (pyStrip p), decodePieces ps with
    | some n, some ns => some (n :: ns)
    | _, _ => none

/-- Parse a JSON array of non-negative integers (model of `json.loads`
restricted to the shapes the repository stores). -/
def decodeIntList (s : List Char) : Option (List Nat) :=
  if s.head? = some '[' ∧ s.getLast? = some ']' then
    let inner := (s.drop 1).dropLast
    if inner.all pyIsSpace then some []
    else decodePieces (splitComma inner)
  else none

/-! ### Answer text formatter (`services/mission_poll_service.py`)

`format_poll_answer` tries four renderings in order and returns the first
that fits the 55-character Discord poll-answer budget. -/

/-- Regex word character (`\w`): letters, digits, underscore. -/
def isWordChar (c : Char) : Bool := c.isAlpha || c.isDigit || c = '_'

/-- Lower-cased letters of the word the abbreviation rule targets. -/
def OPERATION_LOWER : List Char := ['o', 'p', 'e', 'r', 'a', 't', 'i', 'o', 'n']

/-- Word boundary (`\b`) to the right of a match. -/
def opBoundaryAfter : List Char → Bool
  | [] => true
  | d :: _ => !isWordChar d

/-- Scanner for `re.sub(r'\bOperation\b', 'Op', name, flags=re.IGNORECASE)`:
`prevWord` records whether the previous character was a word character; the
fuel argument (one unit per consumed character) makes the recursion
structural, and `fuel = s.length` always suffices. -/
def opSubFuel : Nat → Bool → List Char → List Char
  | 0, _, s => s
  | fuel + 1, prevWord, s =>
    match s with
    | [] => []
    | c :: rest =>
      if prevWord = false ∧ ((c :: rest).take 9).map Char.toLower = OPERATION_LOWER ∧
          opBoundaryAfter ((c :: rest).drop 9) then
        'O' :: 'p' :: opSubFuel fuel true ((c :: rest).drop 9)
      else c :: opSubFuel fuel (isWordChar c) rest

/-- Model of `re.sub(r'\bOperation\b', 'Op', mission_name, flags=re.IGNORECASE)`. -/
def opSub (s : List Char) : List Char := opSubFuel s.length false s

/-- Composition tag abbreviation table (lower-cased keys). -/
def COMPOSITION_ABBREVIATIONS : List (List Char × List Char) :=
  [ (("infantry").toList, ("INF").toList),
    (("motorised").toList, ("MOTO").toList),
    (("mechanized").toList, ("MECH").toList),
    (("air assault").toList, ("AIR").toList),
    (("amphibious").toList, ("AMPH").toList),
    (("armored").toList, ("ARM").toList),
    (("battlebus").toList, ("BB").toList),
    (("special forces").toList, ("SF").toList) ]

/-- Python `dict.get` over an association list. -/
def dictGet (table : List (List Char × List Char)) (key : List Char) : Option (List Char) :=
  match table with
  | [] => none
  | (k, v) :: rest => if k = key then some v else dictGet rest key

/-- Model of `COMPOSITION_ABBREVIATIONS.get(t.lower(), t[:4].upper())`. -/
def abbrevTag (t : List Char) : List Char :=
  match dictGet COMPOSITION_ABBREVIATIONS (lowerList t) with
  | some a => a
  | none => (t.take 4).map Char.toUpper

/-- Model of the bracket join over tags: each tag rendered as `[tag]`. -/
def bracketTags (tags : List (List Char)) : List Char :=
  (tags.map (fun t => '[' :: t ++ [']'])).flatten

/-- Bracketed, abbreviated composition tags. -/
def bracketAbbrevTags (tags : List (List Char)) : List Char :=
  (tags.map (fun t => '[' :: abbrevTag t ++ [']'])).flatten

/-- Model of the join `name + space + tag_str`, with the tag suffix omitted when empty. -/
def withTags (name : List Char) (ts : List Char) : List Char :=
  if ts = [] then name else name ++ ' ' :: ts

def MAX_POLL_ANSWER_LENGTH : Nat := 55

def MAX_POLL_OPTIONS : Nat := 10

/-- Model of `format_poll_answer(mission_name, composition_tags)`: four attempts,
first that fits the 55-character budget wins; last resort truncates the
shortened name with an ellipsis and hard-slices to the budget. -/
def format_poll_answer (mission_name : List Char)
    (composition_tags : List (List Char)) : List Char :=
  let tag_str := bracketTags composition_tags
  let answer1 := withTags mission_name tag_str
  if answer1.length ≤ MAX_POLL_ANSWER_LENGTH then answer1 else
  let short_name := opSub mission_name
  let answer2 := withTags short_name tag_str
  if answer2.length ≤ MAX_POLL_ANSWER_LENGTH then answer2 else
  let tag_str_abbrev := bracketAbbrevTags composition_tags
  let answer3 := withTags short_name tag_str_abbrev
  if answer3.length ≤ MAX_POLL_ANSWER_LENGTH then answer3 else
  let max_name_len : Int := (MAX_POLL_ANSWER_LENGTH : Int) - tag_str_abbrev.length - 2
  let max_name_len' : Nat := if max_name_len < 5 then 5 else max_name_len.toNat
  let truncated_name := short_name.take (max_name_len' - 1) ++ ['…']
  (withTags truncated_name tag_str_abbrev).take MAX_POLL_ANSWER_LENGTH

/-- Holds when the first three formatting attempts all exceed the budget,
so `format_poll_answer` reaches the truncation branch. -/
def needs_truncation (mission_name : List Char)
    (composition_tags : List (List Char)) : Bool :=
  (decide (MAX_POLL_ANSWER_LENGTH <
      (withTags mission_name (bracketTags composition_tags)).length)) &&
  (decide (MAX_POLL_ANSWER_LENGTH <
      (withTags (opSub mission_name) (bracketTags composition_tags)).length)) &&
  (decide (MAX_POLL_ANSWER_LENGTH <
      (withTags (opSub mission_name) (bracketAbbrevTags composition_tags)).length))

/-! ### Forum tag service (`services/forum_tag_service.py`) -/

/-- Full match of `FRAMEWORK_TAG_PATTERN = ^Framework\s+\d+\.\d+$` with
`re.IGNORECASE` (anchored at both ends, so `re.match` is a full match). -/
def isFrameworkTag (s : List Char) : Bool :=
  let ls := lowerList s
  (ls.take 9 == ("framework").toList) &&
  (let r1 := ls.drop 9
   let r2 := r1.dropWhile pyIsSpace
   (decide (r2.length < r1.length)) &&
   (let d1 := r2.takeWhile Char.isDigit
    let r3 := r2.dropWhile Char.isDigit
    (decide (d1 ≠ [])) &&
    (match r3 with
     | c :: r4 =>
       (c == '.') &&
       (let d2 := r4.takeWhile Char.isDigit
        (decide (d2 ≠ [])) && (r4.dropWhile Char.isDigit == []))
     | [] => false)))

structure ForumTag where
  name : List Char
deriving DecidableEq, Repr

inductive ChannelKind
  | forum
  | text
  | voice
deriving DecidableEq, Repr

/-- Channel as seen through `guild.get_channel`: its kind plus, for forum
channels, the available tag set. -/
structure GuildChannel where
  kind : ChannelKind
  available_tags : List ForumTag
deriving DecidableEq, Repr

/-- In-memory state of the `ForumTagService` singleton. -/
structure TagCacheState where
  framework_tags : List (List Char)
  composition_tags : List (List Char)
  all_tags : List ForumTag
  last_fetched : Int
deriving DecidableEq, Repr

/-- Fresh service state (`__init__`). -/
def initTagCache : TagCacheState := ⟨[], [], [], 0⟩

/-- Cache TTL: 24 hours in seconds. -/
def CACHE_TTL : Int := 86400

/-- Model of `is_stale`: empty cache, or older than the TTL. -/
def is_stale (s : TagCacheState) (now : Int) : Bool :=
  s.all_tags.isEmpty || (decide (now - s.last_fetched > CACHE_TTL))

/-- Lexicographic comparison of code-point lists, as Python string `<=`. -/
def strLe : List Char → List Char → Bool
  | [], _ => true
  | _ :: _, [] => false
  | c :: cs, d :: ds => if c = d then strLe cs ds else decide (c < d)

/-- Model of `_categorize_tags`: split stripped tag names on the framework pattern,
sort both lists, and replace the whole cached tag set. -/
def categorize_tags (s : TagCacheState) (tags : List ForumTag) : TagCacheState :=
  { s with
    framework_tags := ((tags.filter (fun t => isFrameworkTag (pyStrip t.name))).map
        (fun t => pyStrip t.name)).mergeSort strLe
    composition_tags := ((tags.filter (fun t => !isFrameworkTag (pyStrip t.name))).map
        (fun t => pyStrip t.name)).mergeSort strLe
    all_tags := tags }

/-- Model of `refresh_tags`: no-op when the channel is missing or not a forum,
otherwise re-categorize the available tags and stamp the refresh time. -/
def refresh_tags (s : TagCacheState) (channel : Option GuildChannel) (now : Int) :
    TagCacheState :=
  match channel with
  | none => s
  | some ch =>
    if ch.kind ≠ ChannelKind.forum then s
    else { categorize_tags s ch.available_tags with last_fetched := now }

/-- Model of `ensure_cache`: refresh only when stale. -/
def ensure_cache (s : TagCacheState) (channel : Option GuildChannel) (now : Int) :
    TagCacheState :=
  if is_stale s now then refresh_tags s channel now else s

/-! ### Candidate threads and filtering (`services/mission_poll_service.py`) -/

/-- Forum thread as the poll pipeline sees it. -/
structure MissionThread where
  id : Nat
  name : List Char
  applied_tags : List (List Char)
  owner_id : Option Nat
deriving DecidableEq, Repr

/-- Model of `get_thread_tags`: stripped tag names of a thread. -/
def get_thread_tags (t : MissionThread) : List (List Char) :=
  t.applied_tags.map pyStrip

/-- Model of `get_thread_composition_tags`: non-framework tags only. -/
def get_thread_composition_tags (t : MissionThread) : List (List Char) :=
  (get_thread_tags t).filter (fun s => !isFrameworkTag s)

/-- Model of `filter_threads_by_tags`: keep threads carrying the framework tag and,
unless the composition filter is the `"All"` sentinel, the composition tag
too (all comparisons case-insensitive); input order is preserved. -/
def filter_threads_by_tags (threads : List MissionThread)
    (framework : List Char) (composition : List Char) : List MissionThread :=
  threads.filter (fun t =>
    let tag_names_lower := (get_thread_tags t).map lowerList
    (tag_names_lower.contains (lowerList framework)) &&
    ((lowerList composition == ("all").toList) ||
      tag_names_lower.contains (lowerList composition)))

/-! ### Poll and event rows (`services/mission_poll_repository.py`,
`services/event_repository.py`, `models/event.py`) -/

inductive PollStatus
  | active
  | completed
  | failed
deriving DecidableEq, Repr

/-- Row of the `mission_polls` table.  `mission_thread_ids_json` holds the
JSON-serialized ordered candidate id list exactly as stored. -/
structure PollRow where
  id : Nat
  guild_id : Nat
  poll_message_id : Nat
  channel_id : Nat
  target_event_id : Nat
  framework_filter : List Char
  composition_filter : List Char
  mission_thread_ids_json : List Char
  poll_end_time : Int
  status : PollStatus
  winning_thread_id : Option Nat
  created_by : Nat
  links_message_id : Option Nat
deriving DecidableEq, Repr

/-- Row of the `events` table (dates as days since an arbitrary epoch). -/
structure EventRow where
  id : Nat
  guild_id : Nat
  date : Int
  type : List Char
  name : List Char
  creator_id : Nat
  creator_name : List Char
deriving DecidableEq, Repr

/-- Model of the `_row_to_dict` step that recovers `mission_thread_ids` from the stored
JSON cell (`json.loads` when the cell is a string). -/
def row_mission_thread_ids (p : PollRow) : Option (List Nat) :=
  decodeIntList p.mission_thread_ids_json

/-- Model of `get_active_polls`: rows with status `'active'`, ordered by end time. -/
def get_active_polls (polls : List PollRow) : List PollRow :=
  (polls.filter (fun p => p.status == PollStatus.active)).mergeSort
    (fun a b => decide (a.poll_end_time ≤ b.poll_end_time))

/-- Model of `get_active_poll_for_event`: first active row targeting the event. -/
def get_active_poll_for_event (polls : List PollRow) (target_event_id : Nat) :
    Option PollRow :=
  (polls.filter (fun p =>
    p.status == PollStatus.active && p.target_event_id == target_event_id)).head?

/-- Model of `get_recent_winners`: completed polls with a non-null winner in the
guild, joined to their target event to obtain the event date. -/
def get_recent_winners (polls : List PollRow) (events : List EventRow)
    (guild_id : Nat) : List (Nat × Int) :=
  polls.filterMap (fun p =>
    if p.guild_id == guild_id && p.status == PollStatus.completed then
      match p.winning_thread_id with
      | some w => (events.find? (fun e => e.id == p.target_event_id)).map
          (fun e => (w, e.date))
      | none => none
    else none)

/-- Model of `mark_completed`: set status `'completed'` and record the winner. -/
def mark_completed (polls : List PollRow) (poll_id : Nat) (winning : Nat) :
    List PollRow :=
  polls.map (fun p =>
    if p.id == poll_id then
      { p with status := PollStatus.completed, winning_thread_id := some winning }
    else p)

/-- Model of `mark_failed`: set status `'failed'`. -/
def mark_failed (polls : List PollRow) (poll_id : Nat) : List PollRow :=
  polls.map (fun p =>
    if p.id == poll_id then { p with status := PollStatus.failed } else p)

/-- Body of `get_excluded_thread_ids`: winners whose target event date lies
less than two weeks before today (`today - event_date < timedelta(weeks=2)`,
a signed comparison, so future-dated events qualify as well). -/
def get_excluded_thread_ids_body (guild_id : Nat) (polls : List PollRow)
    (events : List EventRow) (today : Int) : List Nat :=
  ((get_recent_winners polls events guild_id).filter
    (fun we => decide (today - we.2 < 14))).map (fun we => we.1)

/-! ### Winner selection (`_process_ended_poll`, lines 577-599)

Randomness is injected as a draw `r : Nat`: `random.randint(0, n-1)` is
modelled as `r % n` (every value of the range is reached by a suitable
draw) and `random.choice(l)` as `l.getD (r % l.length) 0`. -/

/-- Model of `max(vote_counts.values())` (vote counts are non-negative). -/
def maxTally (vc : List Nat) : Nat := vc.foldl Nat.max 0

/-- Model of `[i for i, v in vote_counts.items() if v == max_votes]`. -/
def tiedIndices (vc : List Nat) : List Nat :=
  (List.range vc.length).filter (fun i => vc.getD i 0 == maxTally vc)

/-- Winning index: a uniform draw over the full option range when there
are no tallies or all are zero, otherwise a uniform draw among the indices
achieving the maximum tally. -/
def winner_index (vc : List Nat) (numOptions : Nat) (r : Nat) : Nat :=
  if vc.isEmpty || vc.all (fun v => v == 0) then r % numOptions
  else (tiedIndices vc).getD (r % (tiedIndices vc).length) 0

/-! ### Poll creation (`missionpoll_command`, lines 175-394) -/

/-- External-world inputs of one creation request: the configured briefing
channel, the fetched thread list, the shuffle permutation used by
`random.shuffle`, and the success of the two channel sends. -/
structure CreateEnv where
  all_threads : List MissionThread
  briefing_channel_id : Option Nat
  shuffle : List MissionThread → List MissionThread
  send_poll_ok : Bool
  send_links_ok : Bool
  poll_message_id : Nat
  links_message_id : Nat
  channel_id : Nat
  new_poll_id : Nat
  now : Int
  today : Int

inductive CreateError
  | invalidDuration
  | eventNotFound
  | eventAlreadyAssigned
  | duplicateActivePoll
  | noBriefingChannel
  | dedupTypeError
  | noMissionsFound
  | onlyOneMission
  | pollSendFailed
deriving DecidableEq, Repr

/-- External surfaces successfully rendered during creation. -/
inductive SendEffect
  | pollSurface
  | linksEmbed
deriving DecidableEq, Repr

structure CreateResult where
  outcome : Except CreateError Nat
  polls : List PollRow
  sends : List SendEffect
  options_sent : List (List Char)

/-- Positional argument of a dynamic Python call. -/
inductive PyArg
  | natArg (n : Nat)
  | threadListArg (ts : List MissionThread)

inductive PyCallResult
  | ok (ids : List Nat)
  | typeError

/-- Dynamic call of `get_excluded_thread_ids`: the `def` takes exactly one
positional parameter (`guild_id`), so any other arity raises `TypeError`
before the body runs. -/
def get_excluded_thread_ids_call (args : List PyArg) (polls : List PollRow)
    (events : List EventRow) (today : Int) : PyCallResult :=
  match args with
  | [PyArg.natArg g] => PyCallResult.ok (get_excluded_thread_ids_body g polls events today)
  | _ => PyCallResult.typeError

/-- Line 229 of the command:
`excluded_ids, matched_names = await get_excluded_thread_ids(guild.id, filtered)`
passes two positional arguments. -/
def dedup_call (guild_id : Nat) (filtered : List MissionThread)
    (polls : List PollRow) (events : List EventRow) (today : Int) : PyCallResult :=
  get_excluded_thread_ids_call
    [PyArg.natArg guild_id, PyArg.threadListArg filtered] polls events today

/-- Lines 230-236: partition the filtered candidates into the
deduplication-removed list and the remaining list, preserving order. -/
def dedup_partition (excluded_ids : List Nat) (filtered : List MissionThread) :
    List MissionThread × List MissionThread :=
  (filtered.filter (fun t => excluded_ids.contains t.id),
   filtered.filter (fun t => !excluded_ids.contains t.id))

/-- Candidates surviving the dedup partition. -/
def remainingOf (excluded_ids : List Nat) (filtered : List MissionThread) :
    List MissionThread :=
  (dedup_partition excluded_ids filtered).2

/-- Lines 291-297: when more candidates remain than requested options,
shuffle and keep exactly `options` of them; otherwise keep them all. -/
def selectedOf (env : CreateEnv) (options : Nat) (excluded_ids : List Nat)
    (filtered : List MissionThread) : List MissionThread :=
  if options < (remainingOf excluded_ids filtered).length then
    (env.shuffle (remainingOf excluded_ids filtered)).take options
  else remainingOf excluded_ids filtered

/-- Lines 244-394 of the command, parameterized on the excluded-id set the
dedup step was supposed to produce: size checks, random down-selection to
the requested option count, poll-answer formatting, the two sends, and the
final row insert. -/
def missionpoll_after_dedup (polls : List PollRow) (guild_id creator : Nat)
    (target_event : EventRow) (framework composition : List Char)
    (duration options : Nat) (excluded_ids : List Nat)
    (filtered : List MissionThread) (env : CreateEnv) : CreateResult :=
  let remaining := remainingOf excluded_ids filtered
  if remaining.length = 0 then ⟨Except.error CreateError.noMissionsFound, polls, [], []⟩
  else if remaining.length = 1 then ⟨Except.error CreateError.onlyOneMission, polls, [], []⟩
  else
    let selected := selectedOf env options excluded_ids filtered
    let thread_data := selected.map
      (fun t => (t, format_poll_answer t.name (get_thread_composition_tags t)))
    if env.send_poll_ok then
      let mission_thread_ids := thread_data.map (fun td => td.1.id)
      let row : PollRow :=
        { id := env.new_poll_id
          guild_id := guild_id
          poll_message_id := env.poll_message_id
          channel_id := env.channel_id
          target_event_id := target_event.id
          framework_filter := framework
          composition_filter := composition
          mission_thread_ids_json := encodeIntList mission_thread_ids
          poll_end_time := env.now + (duration : Int) * 3600
          status := PollStatus.active
          winning_thread_id := none
          created_by := creator
          links_message_id :=
            if env.send_links_ok then some env.links_message_id else none }
      ⟨Except.ok env.new_poll_id, polls ++ [row],
        SendEffect.pollSurface ::
          (if env.send_links_ok then [SendEffect.linksEmbed] else []),
        thread_data.map (fun td => td.2)⟩
    else ⟨Except.error CreateError.pollSendFailed, polls, [], []⟩

/-- The `/missionpoll` command after permission checks: validations in
source order (duration, event lookup, event unassigned, duplicate active
poll, configured briefing channel), then tag filtering, then the dedup
call of line 229, then the remainder of the pipeline. -/
def missionpoll_command_model (polls : List PollRow) (events : List EventRow)
    (guild_id creator : Nat) (framework : List Char) (event_id : Nat)
    (duration options : Nat) (composition : List Char) (env : CreateEnv) :
    CreateResult :=
  if !([12, 24, 36, 48, 60, 72].contains duration) then
    ⟨Except.error CreateError.invalidDuration, polls, [], []⟩
  else
    match events.find? (fun e => e.id == event_id) with
    | none => ⟨Except.error CreateError.eventNotFound, polls, [], []⟩
    | some target_event =>
      if pyStrip target_event.name ≠ [] then
        ⟨Except.error CreateError.eventAlreadyAssigned, polls, [], []⟩
      else
        match get_active_poll_for_event polls event_id with
        | some _ => ⟨Except.error CreateError.duplicateActivePoll, polls, [], []⟩
        | none =>
          match env.briefing_channel_id with
          | none => ⟨Except.error CreateError.noBriefingChannel, polls, [], []⟩
          | some _ =>
            let filtered := filter_threads_by_tags env.all_threads framework composition
            match dedup_call guild_id filtered polls events env.today with
            | PyCallResult.typeError =>
              ⟨Except.error CreateError.dedupTypeError, polls, [], []⟩
            | PyCallResult.ok excluded_ids =>
              missionpoll_after_dedup polls guild_id creator target_event
                framework composition duration options excluded_ids filtered env

/-! ### Poll resolution (`_process_ended_poll`) and the monitor tick -/

/-- Model of `update_event(event_id, name=..., creator_id=0, creator_name=...)`:
the UPDATE statement touches every row with the id. -/
def update_event_model (events : List EventRow) (event_id : Nat)
    (name : List Char) (creator_name : List Char) : List EventRow :=
  events.map (fun e =>
    if e.id == event_id then
      { e with name := name, creator_id := 0, creator_name := creator_name }
    else e)

/-- Success flag of `update_event` (`result == "UPDATE 1"`): true iff exactly one
row carries the id. -/
def update_event_success (events : List EventRow) (event_id : Nat) : Bool :=
  (events.filter (fun e => e.id == event_id)).length == 1

/-- User-visible outcomes a resolution run can emit. -/
inductive ResolveNotice
  | channelNotFound
  | pollMessageMissing
  | noPollData
  | winnerIndexOutOfRange
  | winnerThreadMissing
  | eventMissing
  | alreadyAssigned
  | scheduled
  | updateFailed
deriving DecidableEq, Repr

/-- External-world inputs of one resolution: whether the guild and channel
resolve, the fetched poll message (`none` = fetch failed or deleted,
`some none` = message without poll data, `some (some vc)` = per-index
tallies), the random draw, the re-fetched winning thread, and the author
name extracted from it. -/
structure ResolveEnv where
  guild_ok : Bool
  channel_ok : Bool
  fetch_message : Option (Option (List Nat))
  rand : Nat
  winning_thread : Option MissionThread
  author_name : List Char

structure ResolveResult where
  polls : List PollRow
  events : List EventRow
  notices : List ResolveNotice
deriving DecidableEq, Repr

/-- Model of `_process_ended_poll`: translate one ended poll into terminal state,
following the source's check order. -/
def process_ended_poll (polls : List PollRow) (events : List EventRow)
    (p : PollRow) (env : ResolveEnv) : ResolveResult :=
  if !env.guild_ok then ⟨mark_failed polls p.id, events, []⟩
  else if !env.channel_ok then
    ⟨mark_failed polls p.id, events, [ResolveNotice.channelNotFound]⟩
  else
    match env.fetch_message with
    | none => ⟨mark_failed polls p.id, events, [ResolveNotice.pollMessageMissing]⟩
    | some none => ⟨mark_failed polls p.id, events, [ResolveNotice.noPollData]⟩
    | some (some vote_counts) =>
      let thread_ids := (row_mission_thread_ids p).getD []
      let winner_idx := winner_index vote_counts thread_ids.length env.rand
      if thread_ids.length ≤ winner_idx then
        ⟨mark_failed polls p.id, events, [ResolveNotice.winnerIndexOutOfRange]⟩
      else
        let winning_thread_id := thread_ids.getD winner_idx 0
        match env.winning_thread with
        | none => ⟨mark_failed polls p.id, events, [ResolveNotice.winnerThreadMissing]⟩
        | some th =>
          match events.find? (fun e => e.id == p.target_event_id) with
          | none => ⟨mark_failed polls p.id, events, [ResolveNotice.eventMissing]⟩
          | some target_event =>
            if pyStrip target_event.name ≠ [] then
              ⟨mark_completed polls p.id winning_thread_id, events,
                [ResolveNotice.alreadyAssigned]⟩
            else
              let events2 :=
                update_event_model events target_event.id th.name env.author_name
              if update_event_success events target_event.id then
                ⟨mark_completed polls p.id winning_thread_id, events2,
                  [ResolveNotice.scheduled]⟩
              else
                ⟨mark_failed polls p.id, events2, [ResolveNotice.updateFailed]⟩

/-- Body of `_poll_monitor_loop`: snapshot the active polls, skip the ones not
yet due, process the rest sequentially. -/
def tick (polls : List PollRow) (events : List EventRow) (now : Int)
    (env : Nat → ResolveEnv) : ResolveResult :=
  (get_active_polls polls).foldl
    (fun st p =>
      if now < p.poll_end_time then st
      else
        let r := process_ended_poll st.polls st.events p (env p.id)
        ⟨r.polls, r.events, st.notices ++ r.notices⟩)
    ⟨polls, events, []⟩

/-! ### Repository write operations as state transitions -/

/-- Arguments of `create_poll` (the INSERT fixes `status = 'active'` and a
null winner; the id is store-assigned). -/
structure CreatePollArgs where
  guild_id : Nat
  poll_message_id : Nat
  channel_id : Nat
  target_event_id : Nat
  framework_filter : List Char
  composition_filter : List Char
  mission_thread_ids : List Nat
  poll_end_time : Int
  created_by : Nat
  links_message_id : Option Nat
deriving DecidableEq, Repr

/-- Row inserted by `create_poll`. -/
def create_poll_row (a : CreatePollArgs) (new_id : Nat) : PollRow :=
  { id := new_id
    guild_id := a.guild_id
    poll_message_id := a.poll_message_id
    channel_id := a.channel_id
    target_event_id := a.target_event_id
    framework_filter := a.framework_filter
    composition_filter := a.composition_filter
    mission_thread_ids_json := encodeIntList a.mission_thread_ids
    poll_end_time := a.poll_end_time
    status := PollStatus.active
    winning_thread_id := none
    created_by := a.created_by
    links_message_id := a.links_message_id }

/-- The three statements that ever write the `mission_polls` table. -/
inductive RepoOp
  | create (a : CreatePollArgs) (new_id : Nat)
  | complete (poll_id winning : Nat)
  | fail (poll_id : Nat)

def applyRepoOp (polls : List PollRow) : RepoOp → List PollRow
  | RepoOp.create a new_id => polls ++ [create_poll_row a new_id]
  | RepoOp.complete poll_id w => mark_completed polls poll_id w
  | RepoOp.fail poll_id => mark_failed polls poll_id

/-- Event-row fixture used in concrete instances. -/
def fixtureEvent (eid : Nat) (d : Int) : EventRow :=
  { id := eid, guild_id := 1, date := d, type := ("Mission").toList,
    name := [], creator_id := 0, creator_name := [] }

/-- Poll-row fixture used in concrete instances. -/
def fixturePoll (pid : Nat) (ev : Nat) (win : Option Nat) (st : PollStatus) : PollRow :=
  { id := pid, guild_id := 1, poll_message_id := 50, channel_id := 60,
    target_event_id := ev, framework_filter := [], composition_filter := [],
    mission_thread_ids_json := encodeIntList [101, 102], poll_end_time := 0,
    status := st, winning_thread_id := win, created_by := 9,
    links_message_id := none }

/-- Poll history with three completed polls whose target events are dated
10 days past, 20 days past, and 5 days in the future relative to day 1000. -/
def c4Polls : List PollRow :=
  [fixturePoll 1 11 (some 101) PollStatus.completed,
   fixturePoll 2 12 (some 102) PollStatus.completed,
   fixturePoll 3 13 (some 103) PollStatus.completed]

def c4Events : List EventRow :=
  [fixtureEvent 11 990, fixtureEvent 12 980, fixtureEvent 13 1005]

/-- Creation environment fixture with no external failures. -/
def fixtureCreateEnv : CreateEnv :=
  { all_threads := [], briefing_channel_id := some 77, shuffle := id,
    send_poll_ok := true, send_links_ok := true, poll_message_id := 500,
    links_message_id := 501, channel_id := 60, new_poll_id := 42,
    now := 0, today := 1000 }

/-- Thread fixture used in concrete instances. -/
def fixtureThread (tid : Nat) (nm : List Char) : MissionThread :=
  ⟨tid, nm, [], none⟩

/-- Resolution environment fixture: everything external succeeds, tallies
`[0, 2]`, winning thread re-fetched as thread 101. -/
def fixtureResolveEnv : ResolveEnv :=
  { guild_ok := true, channel_ok := true, fetch_message := some (some [0, 2]),
    rand := 0, winning_thread := some (fixtureThread 101 (("Alpha").toList)),
    author_name := ("Author").toList }

theorem dropWhile_eq_self_of_head {p : Char → Bool} :
    ∀ {l : List Char}, (∀ c, l.head? = some c → p c = false) → l.dropWhile p = l
  | [], _ => rfl
  | c :: l, h => by
    have hc : p c = false := h c rfl
    simp [List.dropWhile, hc]

theorem pyStrip_eq_self {s : List Char}
    (h1 : ∀ c, s.head? = some c → pyIsSpace c = false)
    (h2 : ∀ c, s.getLast? = some c → pyIsSpace c = false) :
    pyStrip s = s := by
  unfold pyStrip
  rw [dropWhile_eq_self_of_head h1]
  rw [dropWhile_eq_self_of_head (by
    intro c hc
    apply h2
    rwa [List.getLast?_eq_head?_reverse])]
  exact List.reverse_reverse s

theorem pyStrip_cons_space (s : List Char) :
    pyStrip (' ' :: s) = pyStrip s := by
  unfold pyStrip
  have : pyIsSpace ' ' = true := by decide
  simp [List.dropWhile, this]

theorem mem_of_head?_eq {α} {l : List α} {c : α} (h : l.head? = some c) : c ∈ l := by
  cases l with
  | nil => simp at h
  | cons a t =>
    simp only [List.head?_cons, Option.some.injEq] at h
    subst h
    exact List.mem_cons_self _ _

theorem mem_of_getLast?_eq {α} {l : List α} {c : α} (h : l.getLast? = some c) : c ∈ l := by
  rcases List.mem_getLast?_eq_getLast (Option.mem_def.mpr h) with ⟨hne, hc⟩
  subst hc
  exact List.getLast_mem hne

theorem digitsOfFuel_lt :
    ∀ (fuel n : Nat), n ≤ fuel → ∀ d ∈ digitsOfFuel fuel n, d < 10 := by
  intro fuel
  induction fuel with
  | zero =>
    intro n hn d hd
    simp only [digitsOfFuel, List.mem_singleton] at hd
    omega
  | succ fuel ih =>
    intro n hn d hd
    rw [digitsOfFuel] at hd
    by_cases h : n < 10
    · rw [if_pos h] at hd
      simp only [List.mem_singleton] at hd
      omega
    · rw [if_neg h] at hd
      rcases List.mem_append.mp hd with h1 | h1
      · have hdiv : n / 10 ≤ fuel := by omega
        exact ih (n / 10) hdiv d h1
      · simp only [List.mem_singleton] at h1
        omega

theorem digitsOf_lt (n : Nat) : ∀ d ∈ digitsOf n, d < 10 :=
  digitsOfFuel_lt n n (le_refl n)

theorem digitsOf_ne_nil (n : Nat) : digitsOf n ≠ [] := by
  unfold digitsOf
  cases n with
  | zero => simp [digitsOfFuel]
  | succ m =>
    rw [digitsOfFuel]
    split
    · simp
    · simp

theorem digitChar_toNat {d : Nat} (h : d < 10) : (digitChar d).toNat = 48 + d := by
  interval_cases d <;> decide

theorem digitChar_digit {d : Nat} (h : d < 10) :
    (48 ≤ (digitChar d).toNat && (digitChar d).toNat ≤ 57) = true := by
  interval_cases d <;> decide

theorem digitChar_not_space {d : Nat} (h : d < 10) : pyIsSpace (digitChar d) = false := by
  interval_cases d <;> decide

theorem digitChar_ne_comma {d : Nat} (h : d < 10) : digitChar d ≠ ',' := by
  interval_cases d <;> decide

theorem foldl_digits_val (ds : List Nat) :
    ∀ a, (ds.map digitChar).foldl (fun a c => a * 10 + (c.toNat - 48)) a =
      ds.foldl (fun a d => a * 10 + d) a ∨ ¬ (∀ d ∈ ds, d < 10) := by
  induction ds with
  | nil => intro a; left; rfl
  | cons d ds ih =>
    intro a
    by_cases hall : ∀ x ∈ d :: ds, x < 10
    · left
      have hd : d < 10 := hall d (by simp)
      have htl : ∀ x ∈ ds, x < 10 := fun x hx => hall x (by simp [hx])
      simp only [List.map_cons, List.foldl_cons]
      rw [digitChar_toNat hd]
      have : 48 + d - 48 = d := by omega
      rw [this]
      rcases ih (a * 10 + d) with h1 | h1
      · exact h1
      · exact absurd htl h1
    · right; exact hall

theorem digitsOfFuel_foldl_val :
    ∀ (fuel n : Nat), n ≤ fuel → ∀ a,
      (digitsOfFuel fuel n).foldl (fun a d => a * 10 + d) a =
        a * 10 ^ (digitsOfFuel fuel n).length + n := by
  intro fuel
  induction fuel with
  | zero =>
    intro n hn a
    have : n = 0 := by omega
    subst this
    simp [digitsOfFuel]
  | succ fuel ih =>
    intro n hn a
    rw [digitsOfFuel]
    by_cases h : n < 10
    · rw [if_pos h]
      simp [List.foldl]
    · rw [if_neg h]
      rw [List.foldl_append]
      have hdiv : n / 10 ≤ fuel := by omega
      rw [ih (n / 10) hdiv a]
      simp only [List.foldl]
      rw [List.length_append]
      simp only [List.length_cons, List.length_nil]
      have hmod : n / 10 * 10 + n % 10 = n := by omega
      rw [pow_succ]
      ring_nf
      omega

theorem digitsOf_foldl_val (n : Nat) :
    ∀ a, (digitsOf n).foldl (fun a d => a * 10 + d) a =
      a * 10 ^ (digitsOf n).length + n :=
  digitsOfFuel_foldl_val n n (le_refl n)

theorem parseNat_encodeNat (n : Nat) : parseNat (encodeNat n) = some n := by
  unfold parseNat encodeNat
  have hne : (digitsOf n).map digitChar ≠ [] := by
    intro h
    exact digitsOf_ne_nil n (List.map_eq_nil_iff.mp h)
  have hall : ((digitsOf n).map digitChar).all
      (fun c => 48 ≤ c.toNat && c.toNat ≤ 57) = true := by
    rw [List.all_eq_true]
    intro c hc
    rcases List.mem_map.mp hc with ⟨d, hd, rfl⟩
    exact digitChar_digit (digitsOf_lt n d hd)
  rw [if_pos ⟨hne, hall⟩]
  congr 1
  rcases foldl_digits_val (digitsOf n) 0 with h1 | h1
  · rw [h1, digitsOf_foldl_val]
    omega
  · exact absurd (digitsOf_lt n) h1

theorem encodeNat_ne_nil (n : Nat) : encodeNat n ≠ [] := by
  intro h
  exact digitsOf_ne_nil n (List.map_eq_nil_iff.mp h)

theorem encodeNat_chars (n : Nat) :
    ∀ c ∈ encodeNat n, pyIsSpace c = false ∧ c ≠ ',' := by
  intro c hc
  rcases List.mem_map.mp hc with ⟨d, hd, rfl⟩
  have h10 := digitsOf_lt n d hd
  exact ⟨digitChar_not_space h10, digitChar_ne_comma h10⟩

theorem pyStrip_encodeNat (n : Nat) : pyStrip (encodeNat n) = encodeNat n := by
  apply pyStrip_eq_self
  · intro c hc
    exact (encodeNat_chars n c (mem_of_head?_eq hc)).1
  · intro c hc
    exact (encodeNat_chars n c (mem_of_getLast?_eq hc)).1

theorem splitComma_ne_nil : ∀ l : List Char, splitComma l ≠ []
  | [] => by simp [splitComma]
  | c :: rest => by
    unfold splitComma
    split
    · simp
    · split <;> simp

theorem splitComma_cons_of_cons {c : Char} (hc : c ≠ ',') {rest : List Char}
    {g : List Char} {gs : List (List Char)} (h : splitComma rest = g :: gs) :
    splitComma (c :: rest) = (c :: g) :: gs := by
  rw [splitComma, if_neg hc, h]

theorem splitComma_no_comma {xs : List Char} (h : ',' ∉ xs) :
    splitComma xs = [xs] := by
  induction xs with
  | nil => rfl
  | cons c rest ih =>
    have hc : c ≠ ',' := fun hc => h (by simp [hc])
    have hrest : ',' ∉ rest := fun hr => h (by simp [hr])
    exact splitComma_cons_of_cons hc (ih hrest)

theorem splitComma_comma_cons (t : List Char) :
    splitComma (',' :: t) = [] :: splitComma t := by
  rw [splitComma, if_pos rfl]

theorem splitComma_append {xs : List Char} (t : List Char) (h : ',' ∉ xs) :
    splitComma (xs ++ ',' :: t) = xs :: splitComma t := by
  induction xs with
  | nil =>
    simp only [List.nil_append]
    exact splitComma_comma_cons t
  | cons c rest ih =>
    have hc : c ≠ ',' := fun hc => h (by simp [hc])
    have hrest : ',' ∉ rest := fun hr => h (by simp [hr])
    simp only [List.cons_append]
    exact splitComma_cons_of_cons hc (ih hrest)

theorem decodePieces_space_map (l : List Nat) :
    decodePieces ((l.map encodeNat).map (fun p => ' ' :: p)) = some l := by
  induction l with
  | nil => rfl
  | cons n rest ih =>
    simp only [List.map_cons]
    unfold decodePieces
    rw [pyStrip_cons_space, pyStrip_encodeNat, parseNat_encodeNat, ih]

theorem splitComma_join_pieces : ∀ (ms : List Nat) (m : Nat),
    splitComma (joinCommaSpace ((m :: ms).map encodeNat)) =
      encodeNat m :: (ms.map encodeNat).map (fun p => ' ' :: p) := by
  intro ms
  induction ms with
  | nil =>
    intro m
    simp only [List.map_cons, List.map_nil]
    exact splitComma_no_comma (fun hmem => (encodeNat_chars m ',' hmem).2 rfl)
  | cons k ks ih =>
    intro m
    simp only [List.map_cons] at ih ⊢
    have hjoin : joinCommaSpace (encodeNat m :: encodeNat k :: ks.map encodeNat) =
        encodeNat m ++ ',' :: ' ' :: joinCommaSpace (encodeNat k :: ks.map encodeNat) := rfl
    rw [hjoin,
      splitComma_append _ (fun hmem => (encodeNat_chars m ',' hmem).2 rfl)]
    congr 1
    have hsp : (' ' : Char) ≠ ',' := by decide
    exact splitComma_cons_of_cons hsp (ih k)

theorem decodeIntList_encodeIntList (l : List Nat) :
    decodeIntList (encodeIntList l) = some l := by
  unfold encodeIntList decodeIntList
  have hhead : ('[' :: (joinCommaSpace (l.map encodeNat) ++ [']'])).head? = some '[' := rfl
  have hlast : ('[' :: (joinCommaSpace (l.map encodeNat) ++ [']'])).getLast? = some ']' := by
    rw [← List.cons_append]
    exact List.getLast?_concat _
  rw [if_pos ⟨hhead, hlast⟩]
  have hinner : (('[' :: joinCommaSpace (l.map encodeNat) ++ [']']).drop 1).dropLast =
      joinCommaSpace (l.map encodeNat) := by
    rw [List.cons_append, List.drop_succ_cons, List.drop_zero]
    exact List.dropLast_concat
  rw [hinner]
  cases l with
  | nil =>
    simp [joinCommaSpace]
  | cons n rest =>
    have hnotallspace : (joinCommaSpace ((n :: rest).map encodeNat)).all pyIsSpace = false := by
      rw [Bool.eq_false_iff]
      intro hall
      rw [List.all_eq_true] at hall
      cases hhd : encodeNat n with
      | nil => exact encodeNat_ne_nil n hhd
      | cons c cs =>
        have hc : c ∈ joinCommaSpace ((n :: rest).map encodeNat) := by
          cases rest with
          | nil => simp [joinCommaSpace, hhd]
          | cons m r => simp [joinCommaSpace, hhd]
        have := hall c hc
        have hcfalse : pyIsSpace c = false :=
          (encodeNat_chars n c (by rw [hhd]; simp)).1
        rw [hcfalse] at this
        exact Bool.false_ne_true this
    simp only [hnotallspace, Bool.false_eq_true, if_false]
    rw [splitComma_join_pieces rest n]
    unfold decodePieces
    rw [pyStrip_encodeNat, parseNat_encodeNat, decodePieces_space_map]

theorem truncation_core (short tsa : List Char) :
    ((withTags (short.take ((if ((MAX_POLL_ANSWER_LENGTH : Int) - tsa.length - 2) < 5 then 5
        else ((MAX_POLL_ANSWER_LENGTH : Int) - tsa.length - 2).toNat) - 1) ++ ['…'])
      tsa).take MAX_POLL_ANSWER_LENGTH).length ≤ MAX_POLL_ANSWER_LENGTH ∧
    '…' ∈ (withTags (short.take ((if ((MAX_POLL_ANSWER_LENGTH : Int) - tsa.length - 2) < 5 then 5
        else ((MAX_POLL_ANSWER_LENGTH : Int) - tsa.length - 2).toNat) - 1) ++ ['…'])
      tsa).take MAX_POLL_ANSWER_LENGTH ∧
    (tsa = [] → ((withTags (short.take ((if ((MAX_POLL_ANSWER_LENGTH : Int) - tsa.length - 2) < 5 then 5
        else ((MAX_POLL_ANSWER_LENGTH : Int) - tsa.length - 2).toNat) - 1) ++ ['…'])
      tsa).take MAX_POLL_ANSWER_LENGTH).getLast? = some '…') := by
  have hM : MAX_POLL_ANSWER_LENGTH = 55 := rfl
  set mnl : Nat := (if ((MAX_POLL_ANSWER_LENGTH : Int) - tsa.length - 2) < 5 then 5
        else ((MAX_POLL_ANSWER_LENGTH : Int) - tsa.length - 2).toNat) with hmnl
  set trunc : List Char := short.take (mnl - 1) ++ ['…'] with htrunc
  have hmnl53 : mnl ≤ 53 := by
    rw [hmnl, hM]
    split <;> omega
  have htr : trunc.length ≤ 53 := by
    rw [htrunc]
    simp only [List.length_append, List.length_take, List.length_cons, List.length_nil]
    omega
  refine ⟨List.length_take_le _ _, ?_, ?_⟩
  · unfold withTags
    split
    · rw [List.take_of_length_le (by omega)]
      exact List.mem_append_right _ (by simp)
    · rw [List.take_append_eq_append_take, List.take_of_length_le (by omega)]
      exact List.mem_append_left _ (List.mem_append_right _ (by simp))
  · intro htsa
    unfold withTags
    rw [if_pos htsa, List.take_of_length_le (by omega), htrunc]
    exact List.getLast?_concat _

/-- C3 counterexample: at the 60-character name `"a"*60` with composition
tags `["Infantry"]` the first three formatting attempts all overflow the
budget, yet the returned string ends in `']'` (the abbreviated-tag suffix
follows the ellipsis), so the claim that the result always ends with `'…'`
fails on the code. -/
theorem format_poll_answer_ellipsis_counterexample :
    needs_truncation (List.replicate 60 'a') [("Infantry").toList] = true ∧
    ¬ (((format_poll_answer (List.replicate 60 'a') [("Infantry").toList]).getLast? =
          some '…') ∧
       (format_poll_answer (List.replicate 60 'a')
          [("Infantry").toList]).length ≤ MAX_POLL_ANSWER_LENGTH) := by
  constructor
  · decide
  · intro hcl
    exact absurd hcl.1 (by decide)

/-- C3 (amended): whenever the first three formatting attempts of
`format_poll_answer` do not fit, the result has length at most 55, contains
the ellipsis character `'…'` (the truncated-name segment always ends with
it), and — when the composition-tag list is empty, so no tag suffix
follows — the whole string ends with `'…'`. -/
theorem format_poll_answer_truncation_amended (mission_name : List Char)
    (composition_tags : List (List Char))
    (h : needs_truncation mission_name composition_tags = true) :
    (format_poll_answer mission_name composition_tags).length ≤ MAX_POLL_ANSWER_LENGTH ∧
    '…' ∈ format_poll_answer mission_name composition_tags ∧
    (composition_tags = [] →
      (format_poll_answer mission_name composition_tags).getLast? = some '…') := by
  unfold needs_truncation at h
  simp only [Bool.and_eq_true, decide_eq_true_eq] at h
  obtain ⟨⟨h1, h2⟩, h3⟩ := h
  have e : format_poll_answer mission_name composition_tags =
      (withTags ((opSub mission_name).take
          ((if ((MAX_POLL_ANSWER_LENGTH : Int) -
                (bracketAbbrevTags composition_tags).length - 2) < 5 then 5
            else ((MAX_POLL_ANSWER_LENGTH : Int) -
                (bracketAbbrevTags composition_tags).length - 2).toNat) - 1) ++ ['…'])
        (bracketAbbrevTags composition_tags)).take MAX_POLL_ANSWER_LENGTH := by
    simp only [format_poll_answer]
    rw [if_neg (not_le.mpr h1), if_neg (not_le.mpr h2), if_neg (not_le.mpr h3)]
  rw [e]
  refine ⟨(truncation_core (opSub mission_name) (bracketAbbrevTags composition_tags)).1,
    (truncation_core (opSub mission_name) (bracketAbbrevTags composition_tags)).2.1, ?_⟩
  intro hct
  exact (truncation_core (opSub mission_name) (bracketAbbrevTags composition_tags)).2.2
    (by rw [hct]; rfl)

/-- C3 witness: the amended theorem applied at the concrete input
`"a"*60` with tags `["Infantry"]`. -/
theorem format_poll_answer_truncation_amended_witness :
    needs_truncation (List.replicate 60 'a') [("Infantry").toList] = true ∧
    ((format_poll_answer (List.replicate 60 'a')
        [("Infantry").toList]).length ≤ MAX_POLL_ANSWER_LENGTH ∧
     '…' ∈ format_poll_answer (List.replicate 60 'a') [("Infantry").toList] ∧
     ([("Infantry").toList] = ([] : List (List Char)) →
       (format_poll_answer (List.replicate 60 'a')
          [("Infantry").toList]).getLast? = some '…')) :=
  ⟨by decide,
   format_poll_answer_truncation_amended (List.replicate 60 'a')
     [("Infantry").toList] (by decide)⟩

theorem le_foldl_max (l : List Nat) : ∀ a, a ≤ l.foldl Nat.max a := by
  induction l with
  | nil => intro a; exact le_refl a
  | cons x xs ih =>
    intro a
    exact le_trans (Nat.le_max_left a x) (ih (Nat.max a x))

theorem mem_le_foldl_max (l : List Nat) : ∀ a x, x ∈ l → x ≤ l.foldl Nat.max a := by
  induction l with
  | nil => intro a x hx; simp at hx
  | cons y ys ih =>
    intro a x hx
    rcases List.mem_cons.mp hx with rfl | h
    · exact le_trans (Nat.le_max_right a x) (le_foldl_max ys (Nat.max a x))
    · exact ih (Nat.max a y) x h

theorem foldl_max_mem (l : List Nat) :
    ∀ a, l.foldl Nat.max a ∈ l ∨ l.foldl Nat.max a = a := by
  induction l with
  | nil => intro a; right; rfl
  | cons x xs ih =>
    intro a
    rcases ih (Nat.max a x) with h | h
    · left; exact List.mem_cons_of_mem _ h
    · rw [List.foldl_cons, h]
      rcases Nat.le_total a x with hax | hxa
      · left
        have hmax : Nat.max a x = x := Nat.max_eq_right hax
        rw [hmax]
        exact List.mem_cons_self _ _
      · right
        exact Nat.max_eq_left hxa

theorem maxTally_ge (vc : List Nat) : ∀ j, vc.getD j 0 ≤ maxTally vc := by
  intro j
  by_cases hj : j < vc.length
  · have : vc.getD j 0 = vc[j] := by
      simp [List.getD_eq_getElem?_getD, List.getElem?_eq_getElem hj]
    rw [this]
    exact mem_le_foldl_max vc 0 _ (List.getElem_mem hj)
  · have hnone : vc[j]? = none := List.getElem?_eq_none (Nat.le_of_not_lt hj)
    have : vc.getD j 0 = 0 := by
      simp [List.getD_eq_getElem?_getD, hnone]
    rw [this]
    exact Nat.zero_le _

theorem maxTally_mem_of_nonzero {vc : List Nat} (h : ∃ v ∈ vc, v ≠ 0) :
    maxTally vc ∈ vc := by
  rcases foldl_max_mem vc 0 with hm | hm
  · exact hm
  · exfalso
    rcases h with ⟨v, hv, hvne⟩
    have hle := mem_le_foldl_max vc 0 v hv
    rw [hm] at hle
    exact hvne (Nat.le_zero.mp hle)

theorem tiedIndices_ne_nil {vc : List Nat} (h : ∃ v ∈ vc, v ≠ 0) :
    tiedIndices vc ≠ [] := by
  have hmem := maxTally_mem_of_nonzero h
  rcases List.mem_iff_getElem.mp hmem with ⟨i, hi, hval⟩
  have : i ∈ tiedIndices vc := by
    unfold tiedIndices
    rw [List.mem_filter]
    constructor
    · exact List.mem_range.mpr hi
    · have : vc.getD i 0 = vc[i] := by
        simp [List.getD_eq_getElem?_getD, List.getElem?_eq_getElem hi]
      rw [this, hval]
      simp
  exact List.ne_nil_of_mem this

theorem mem_tiedIndices {vc : List Nat} {i : Nat} (h : i ∈ tiedIndices vc) :
    i < vc.length ∧ vc.getD i 0 = maxTally vc := by
  unfold tiedIndices at h
  rw [List.mem_filter] at h
  exact ⟨List.mem_range.mp h.1, by simpa using h.2⟩

/-- C1: winner selection.  When there are no tallies at all, or every
tally is zero, the winning index is a uniform draw over the full range
`[0, len(mission_thread_ids) - 1]` (every index of that range is reached
by a suitable draw); otherwise the winning index always achieves the
maximum tally.  In particular, with tallies `[3, 7, 7, 2]` the winner is
always index 1 or 2 whatever the draw. -/
theorem winner_selection_spec (vc : List Nat) (tids : List Nat) (r : Nat) :
    ((vc = [] ∨ ∀ v ∈ vc, v = 0) →
      (0 < tids.length → winner_index vc tids.length r < tids.length) ∧
      (∀ k, k < tids.length → winner_index vc tids.length k = k)) ∧
    ((∃ v ∈ vc, v ≠ 0) →
      winner_index vc tids.length r < vc.length ∧
      vc.getD (winner_index vc tids.length r) 0 = maxTally vc ∧
      (∀ j, vc.getD j 0 ≤ maxTally vc)) ∧
    (winner_index [3, 7, 7, 2] 4 r = 1 ∨ winner_index [3, 7, 7, 2] 4 r = 2) := by
  refine ⟨?_, ?_, ?_⟩
  · intro hz
    have hcond : (vc.isEmpty || vc.all (fun v => v == 0)) = true := by
      rcases hz with rfl | hall
      · simp
      · simp only [Bool.or_eq_true, List.all_eq_true]
        right
        intro v hv
        simpa using hall v hv
    constructor
    · intro hpos
      unfold winner_index
      rw [if_pos hcond]
      exact Nat.mod_lt _ hpos
    · intro k hk
      unfold winner_index
      rw [if_pos hcond]
      exact Nat.mod_eq_of_lt hk
  · intro hnz
    have hcond : (vc.isEmpty || vc.all (fun v => v == 0)) = false := by
      rcases hnz with ⟨v, hv, hvne⟩
      rw [Bool.or_eq_false_iff]
      constructor
      · rw [List.isEmpty_eq_false_iff_exists_mem]
        exact ⟨v, hv⟩
      · rw [Bool.eq_false_iff]
        intro hall
        rw [List.all_eq_true] at hall
        have hv0 := hall v hv
        simp at hv0
        exact hvne hv0
    have htne := tiedIndices_ne_nil hnz
    have hlen : 0 < (tiedIndices vc).length := List.length_pos.mpr htne
    have hin : r % (tiedIndices vc).length < (tiedIndices vc).length :=
      Nat.mod_lt _ hlen
    have hwin : winner_index vc tids.length r ∈ tiedIndices vc := by
      unfold winner_index
      rw [if_neg (by rw [hcond]; simp)]
      have : (tiedIndices vc).getD (r % (tiedIndices vc).length) 0 =
          (tiedIndices vc)[r % (tiedIndices vc).length] := by
        simp [List.getD_eq_getElem?_getD, List.getElem?_eq_getElem hin]
      rw [this]
      exact List.getElem_mem hin
    rcases mem_tiedIndices hwin with ⟨h1, h2⟩
    exact ⟨h1, h2, maxTally_ge vc⟩
  · have h2 : tiedIndices [3, 7, 7, 2] = [1, 2] := by decide
    unfold winner_index
    rw [if_neg (by decide)]
    rw [h2]
    rcases Nat.mod_two_eq_zero_or_one r with h | h
    · left
      simp [h]
    · right
      simp [h]

/-- C1 witness: the theorem applied at concrete tallies — the empty-tally
case on a two-option poll, the `[0, 4, 4]` tie, and the spec's `[3,7,7,2]`
example. -/
theorem winner_selection_spec_witness :
    (winner_index [] ([10, 20] : List Nat).length 5 < ([10, 20] : List Nat).length) ∧
    (winner_index [0, 4, 4] ([5, 6, 7] : List Nat).length 0 < ([0, 4, 4] : List Nat).length ∧
      ([0, 4, 4] : List Nat).getD (winner_index [0, 4, 4] ([5, 6, 7] : List Nat).length 0) 0 =
        maxTally [0, 4, 4] ∧
      (∀ j, ([0, 4, 4] : List Nat).getD j 0 ≤ maxTally [0, 4, 4])) ∧
    (winner_index [3, 7, 7, 2] 4 9 = 1 ∨ winner_index [3, 7, 7, 2] 4 9 = 2) :=
  ⟨((winner_selection_spec [] [10, 20] 5).1 (Or.inl rfl)).1 (by decide),
   (winner_selection_spec [0, 4, 4] [5, 6, 7] 0).2.1 (by decide),
   (winner_selection_spec [3, 7, 7, 2] [0, 0, 0, 0] 9).2.2⟩

/-- C10: refreshing the tag cache against a resolvable forum channel whose
available tag set is empty makes both categorized lists empty; the empty
`all_tags` alone makes `is_stale` true regardless of the timestamp, so
every subsequent `ensure_cache` performs a full refresh again. -/
theorem tag_cache_empty_refresh_always_stale (s : TagCacheState)
    (ch : GuildChannel) (now : Int)
    (hkind : ch.kind = ChannelKind.forum) (hempty : ch.available_tags = []) :
    (refresh_tags s (some ch) now).framework_tags = [] ∧
    (refresh_tags s (some ch) now).composition_tags = [] ∧
    (∀ now' : Int, is_stale (refresh_tags s (some ch) now) now' = true) ∧
    (∀ (ch2 : Option GuildChannel) (now' : Int),
      ensure_cache (refresh_tags s (some ch) now) ch2 now' =
        refresh_tags (refresh_tags s (some ch) now) ch2 now') := by
  have hr : refresh_tags s (some ch) now =
      { categorize_tags s ch.available_tags with last_fetched := now } := by
    simp only [refresh_tags]
    rw [if_neg (by rw [hkind]; simp)]
  rw [hr, hempty]
  have hstale : ∀ now' : Int,
      is_stale { categorize_tags s [] with last_fetched := now } now' = true := by
    intro now'
    simp [is_stale, categorize_tags]
  refine ⟨by simp [categorize_tags], by simp [categorize_tags], hstale, ?_⟩
  intro ch2 now'
  unfold ensure_cache
  simp only [hstale now', if_true]

/-- C10 witness: the theorem applied to the fresh cache state and a forum
channel with no available tags. -/
theorem tag_cache_empty_refresh_always_stale_witness :
    (refresh_tags initTagCache (some ⟨ChannelKind.forum, []⟩) 7).framework_tags = [] ∧
    (refresh_tags initTagCache (some ⟨ChannelKind.forum, []⟩) 7).composition_tags = [] ∧
    (∀ now' : Int,
      is_stale (refresh_tags initTagCache (some ⟨ChannelKind.forum, []⟩) 7) now' = true) ∧
    (∀ (ch2 : Option GuildChannel) (now' : Int),
      ensure_cache (refresh_tags initTagCache (some ⟨ChannelKind.forum, []⟩) 7) ch2 now' =
        refresh_tags (refresh_tags initTagCache (some ⟨ChannelKind.forum, []⟩) 7) ch2 now') :=
  tag_cache_empty_refresh_always_stale initTagCache ⟨ChannelKind.forum, []⟩ 7 rfl rfl

/-- C4: the exclusion set contains exactly the `winning_thread_id` values
of completed polls with a non-null winner whose target event's date
satisfies the signed comparison `today - event_date < 14`; concretely, at
day 1000 the poll history with event dates 990 (10 days past), 980
(20 days past) and 1005 (future) yields exactly the winners of the 10-days
-past and future events. -/
theorem exclusion_window_spec :
    (∀ (polls : List PollRow) (events : List EventRow) (guild_id : Nat)
        (today : Int) (w : Nat),
      w ∈ get_excluded_thread_ids_body guild_id polls events today ↔
        ∃ p ∈ polls, p.guild_id = guild_id ∧ p.status = PollStatus.completed ∧
          p.winning_thread_id = some w ∧
          ∃ e, events.find? (fun e' => e'.id == p.target_event_id) = some e ∧
            today - e.date < 14) ∧
    get_excluded_thread_ids_body 1 c4Polls c4Events 1000 = [101, 103] := by
  constructor
  · intro polls events guild_id today w
    unfold get_excluded_thread_ids_body
    rw [List.mem_map]
    constructor
    · rintro ⟨⟨wv, d⟩, hmem, hfst⟩
      simp only at hfst
      subst hfst
      rw [List.mem_filter] at hmem
      obtain ⟨hrw, hdate⟩ := hmem
      unfold get_recent_winners at hrw
      rw [List.mem_filterMap] at hrw
      obtain ⟨p, hp, hfp⟩ := hrw
      by_cases hg : (p.guild_id == guild_id && p.status == PollStatus.completed) = true
      · rw [if_pos hg] at hfp
        simp only [Bool.and_eq_true, beq_iff_eq] at hg
        cases hw : p.winning_thread_id with
        | none => rw [hw] at hfp; simp at hfp
        | some wv' =>
          rw [hw] at hfp
          rw [Option.map_eq_some'] at hfp
          obtain ⟨e, hfind, heq⟩ := hfp
          have hwv : wv' = wv := congrArg Prod.fst heq
          have hd : e.date = d := congrArg Prod.snd heq
          refine ⟨p, hp, hg.1, hg.2, by rw [hw, hwv], e, hfind, ?_⟩
          rw [hd]
          simpa using hdate
      · rw [if_neg hg] at hfp
        simp at hfp
    · rintro ⟨p, hp, hguild, hstatus, hwin, e, hfind, hdate⟩
      refine ⟨(w, e.date), ?_, rfl⟩
      rw [List.mem_filter]
      constructor
      · unfold get_recent_winners
        rw [List.mem_filterMap]
        refine ⟨p, hp, ?_⟩
        rw [if_pos (by simp [hguild, hstatus]), hwin, hfind]
        rfl
      · simpa using hdate
  · decide

/-- C4 witness: the concrete conjunct of the theorem instantiated — winner
101 (event 10 days past) is in the exclusion set computed at day 1000. -/
theorem exclusion_window_spec_witness :
    101 ∈ get_excluded_thread_ids_body 1 c4Polls c4Events 1000 := by
  rw [exclusion_window_spec.2]
  decide

/-- C7: when the target event already has an active poll, the creation
command fails with the duplicate-poll error, the poll table is unchanged,
and no external surface (vote poll or links embed) is rendered; the event
table is never written by the creation path at all. -/
theorem duplicate_active_poll_rejected (polls : List PollRow)
    (events : List EventRow) (guild_id creator : Nat) (framework : List Char)
    (event_id : Nat) (duration options : Nat) (composition : List Char)
    (env : CreateEnv) (ev : EventRow)
    (hdur : ([12, 24, 36, 48, 60, 72] : List Nat).contains duration = true)
    (hev : events.find? (fun e => e.id == event_id) = some ev)
    (hname : pyStrip ev.name = [])
    (q : PollRow)
    (hdup : get_active_poll_for_event polls event_id = some q) :
    missionpoll_command_model polls events guild_id creator framework event_id
        duration options composition env =
      ⟨Except.error CreateError.duplicateActivePoll, polls, [], []⟩ := by
  unfold missionpoll_command_model
  rw [hdur]
  simp only [Bool.not_true, Bool.false_eq_true, if_false, hev, hname, ne_eq,
    not_true_eq_false, hdup]

/-- C7 witness: a concrete database where event 11 already has an active
poll; the creation request is rejected without touching the table. -/
theorem duplicate_active_poll_rejected_witness :
    missionpoll_command_model [fixturePoll 1 11 none PollStatus.active]
        [fixtureEvent 11 990] 1 9 [] 11 24 5 [] fixtureCreateEnv =
      ⟨Except.error CreateError.duplicateActivePoll,
        [fixturePoll 1 11 none PollStatus.active], [], []⟩ :=
  duplicate_active_poll_rejected [fixturePoll 1 11 none PollStatus.active]
    [fixtureEvent 11 990] 1 9 [] 11 24 5 [] fixtureCreateEnv
    (fixtureEvent 11 990) (by decide) rfl rfl
    (fixturePoll 1 11 none PollStatus.active) rfl

/-- C5 (code bug): the command calls
`get_excluded_thread_ids(guild.id, filtered)` with two positional
arguments, but the service defines `get_excluded_thread_ids(guild_id)`
with a single parameter, so the dynamic call raises `TypeError` on every
input; every creation request that passes all prechecks therefore aborts
at the dedup step with the poll table unchanged and nothing rendered,
instead of partitioning the candidates. -/
theorem dedup_call_always_type_error (polls : List PollRow)
    (events : List EventRow) (guild_id creator : Nat) (framework : List Char)
    (event_id : Nat) (duration options : Nat) (composition : List Char)
    (env : CreateEnv) (ev : EventRow) (bc : Nat)
    (hdur : ([12, 24, 36, 48, 60, 72] : List Nat).contains duration = true)
    (hev : events.find? (fun e => e.id == event_id) = some ev)
    (hname : pyStrip ev.name = [])
    (hnodup : get_active_poll_for_event polls event_id = none)
    (hch : env.briefing_channel_id = some bc) :
    missionpoll_command_model polls events guild_id creator framework event_id
        duration options composition env =
      ⟨Except.error CreateError.dedupTypeError, polls, [], []⟩ ∧
    (∀ (g : Nat) (filtered : List MissionThread) (polls' : List PollRow)
        (events' : List EventRow) (today : Int),
      dedup_call g filtered polls' events' today = PyCallResult.typeError) := by
  constructor
  · unfold missionpoll_command_model
    rw [hdur]
    simp only [Bool.not_true, Bool.false_eq_true, if_false, hev, hname, ne_eq,
      not_true_eq_false, hnodup, hch]
    rfl
  · intro g filtered polls' events' today
    rfl

/-- C5 witness: a fully valid request (valid duration, unassigned event,
no duplicate poll, configured channel) still dies with the TypeError. -/
theorem dedup_call_always_type_error_witness :
    missionpoll_command_model [] [fixtureEvent 11 990] 1 9 [] 11 24 5 []
        fixtureCreateEnv =
      ⟨Except.error CreateError.dedupTypeError, [], [], []⟩ ∧
    dedup_call 1 [] [] [] 1000 = PyCallResult.typeError :=
  ⟨(dedup_call_always_type_error [] [fixtureEvent 11 990] 1 9 [] 11 24 5 []
      fixtureCreateEnv (fixtureEvent 11 990) 77 (by decide) rfl rfl rfl rfl).1,
   (dedup_call_always_type_error [] [fixtureEvent 11 990] 1 9 [] 11 24 5 []
      fixtureCreateEnv (fixtureEvent 11 990) 77 (by decide) rfl rfl rfl rfl).2
     1 [] [] [] 1000⟩

/-- C6: atomicity of creation around the two sends.  When the vote-surface
send fails, the procedure returns before persisting any row (and nothing
was rendered); when the vote surface succeeds but the links embed fails,
the row is still inserted, with `links_message_id` null. -/
theorem creation_send_atomicity (polls : List PollRow) (guild_id creator : Nat)
    (target_event : EventRow) (framework composition : List Char)
    (duration options : Nat) (excluded_ids : List Nat)
    (filtered : List MissionThread) (env : CreateEnv) :
    (env.send_poll_ok = false →
      (missionpoll_after_dedup polls guild_id creator target_event framework
          composition duration options excluded_ids filtered env).polls = polls ∧
      (missionpoll_after_dedup polls guild_id creator target_event framework
          composition duration options excluded_ids filtered env).sends = []) ∧
    (env.send_poll_ok = true → env.send_links_ok = false →
      2 ≤ (remainingOf excluded_ids filtered).length →
      ∃ row, (missionpoll_after_dedup polls guild_id creator target_event
          framework composition duration options excluded_ids filtered
          env).polls = polls ++ [row] ∧
        row.links_message_id = none ∧ row.status = PollStatus.active ∧
        (missionpoll_after_dedup polls guild_id creator target_event framework
            composition duration options excluded_ids filtered env).sends =
          [SendEffect.pollSurface]) := by
  constructor
  · intro hsend
    simp only [missionpoll_after_dedup]
    by_cases h0 : (remainingOf excluded_ids filtered).length = 0
    · rw [if_pos h0]
      exact ⟨rfl, rfl⟩
    · rw [if_neg h0]
      by_cases h1 : (remainingOf excluded_ids filtered).length = 1
      · rw [if_pos h1]
        exact ⟨rfl, rfl⟩
      · rw [if_neg h1, if_neg (by rw [hsend]; simp)]
        exact ⟨rfl, rfl⟩
  · intro hsend hlinks hlen
    simp only [missionpoll_after_dedup]
    rw [if_neg (by omega), if_neg (by omega), if_pos hsend]
    refine ⟨_, rfl, ?_, rfl, ?_⟩
    · show (if env.send_links_ok = true then some env.links_message_id
          else none) = none
      rw [if_neg (by rw [hlinks]; simp)]
    · show SendEffect.pollSurface ::
          (if env.send_links_ok = true then [SendEffect.linksEmbed] else []) =
          [SendEffect.pollSurface]
      rw [if_neg (by rw [hlinks]; simp)]

/-- C6 witness: with two surviving candidates, a failed links send still
produces a persisted active row with a null links id, and a failed poll
send persists nothing. -/
theorem creation_send_atomicity_witness :
    (({ fixtureCreateEnv with send_poll_ok := false } : CreateEnv).send_poll_ok = false →
      (missionpoll_after_dedup [] 1 9 (fixtureEvent 11 990) [] [] 24 3 []
          [fixtureThread 201 (("Alpha").toList), fixtureThread 202 (("Bravo").toList)]
          { fixtureCreateEnv with send_poll_ok := false }).polls = [] ∧
      (missionpoll_after_dedup [] 1 9 (fixtureEvent 11 990) [] [] 24 3 []
          [fixtureThread 201 (("Alpha").toList), fixtureThread 202 (("Bravo").toList)]
          { fixtureCreateEnv with send_poll_ok := false }).sends = []) ∧
    (({ fixtureCreateEnv with send_poll_ok := false } : CreateEnv).send_poll_ok = true →
      ({ fixtureCreateEnv with send_poll_ok := false } : CreateEnv).send_links_ok = false →
      2 ≤ (remainingOf []
          [fixtureThread 201 (("Alpha").toList), fixtureThread 202 (("Bravo").toList)]).length →
      ∃ row, (missionpoll_after_dedup [] 1 9 (fixtureEvent 11 990) [] [] 24 3 []
          [fixtureThread 201 (("Alpha").toList), fixtureThread 202 (("Bravo").toList)]
          { fixtureCreateEnv with send_poll_ok := false }).polls = [] ++ [row] ∧
        row.links_message_id = none ∧ row.status = PollStatus.active ∧
        (missionpoll_after_dedup [] 1 9 (fixtureEvent 11 990) [] [] 24 3 []
            [fixtureThread 201 (("Alpha").toList), fixtureThread 202 (("Bravo").toList)]
            { fixtureCreateEnv with send_poll_ok := false }).sends =
          [SendEffect.pollSurface]) :=
  creation_send_atomicity [] 1 9 (fixtureEvent 11 990) [] [] 24 3 []
    [fixtureThread 201 (("Alpha").toList), fixtureThread 202 (("Bravo").toList)]
    { fixtureCreateEnv with send_poll_ok := false }

theorem selectedOf_length (env : CreateEnv) (options : Nat)
    (excluded_ids : List Nat) (filtered : List MissionThread)
    (hperm : ∀ l, List.Perm (env.shuffle l) l) :
    (selectedOf env options excluded_ids filtered).length =
      if options < (remainingOf excluded_ids filtered).length then options
      else (remainingOf excluded_ids filtered).length := by
  unfold selectedOf
  split
  · rename_i hlt
    rw [List.length_take, (hperm _).length_eq]
    omega
  · rfl

/-- C2: creation hard-fails (no row) on 0 or 1 remaining candidates;
every persisted row stores an id list of length between 2 and 10 that
round-trips the JSON storage exactly, keeps exactly the requested count
when more candidates remain than requested, and keeps positional
correspondence: stored id `i` and rendered option text `i` come from the
same selected thread, in the same order. -/
theorem poll_row_bounds_and_roundtrip (polls : List PollRow)
    (guild_id creator : Nat) (target_event : EventRow)
    (framework composition : List Char) (duration options : Nat)
    (excluded_ids : List Nat) (filtered : List MissionThread) (env : CreateEnv)
    (hopt3 : 3 ≤ options) (hopt10 : options ≤ 10)
    (hperm : ∀ l, List.Perm (env.shuffle l) l) :
    ((remainingOf excluded_ids filtered).length = 0 ∨
        (remainingOf excluded_ids filtered).length = 1 →
      (missionpoll_after_dedup polls guild_id creator target_event framework
          composition duration options excluded_ids filtered env).polls = polls) ∧
    (2 ≤ (remainingOf excluded_ids filtered).length → env.send_poll_ok = true →
      ∃ row, (missionpoll_after_dedup polls guild_id creator target_event
          framework composition duration options excluded_ids filtered
          env).polls = polls ++ [row] ∧
        row_mission_thread_ids row =
          some ((selectedOf env options excluded_ids filtered).map
            (fun t => t.id)) ∧
        2 ≤ (selectedOf env options excluded_ids filtered).length ∧
        (selectedOf env options excluded_ids filtered).length ≤ 10 ∧
        (options < (remainingOf excluded_ids filtered).length →
          (selectedOf env options excluded_ids filtered).length = options) ∧
        ((remainingOf excluded_ids filtered).length ≤ options →
          selectedOf env options excluded_ids filtered =
            remainingOf excluded_ids filtered) ∧
        (missionpoll_after_dedup polls guild_id creator target_event framework
            composition duration options excluded_ids filtered
            env).options_sent =
          (selectedOf env options excluded_ids filtered).map
            (fun t => format_poll_answer t.name
              (get_thread_composition_tags t))) := by
  have hsel := selectedOf_length env options excluded_ids filtered hperm
  constructor
  · intro hlen
    simp only [missionpoll_after_dedup]
    rcases hlen with h0 | h1
    · rw [if_pos h0]
    · rw [if_neg (by omega), if_pos h1]
  · intro hlen hsend
    simp only [missionpoll_after_dedup]
    rw [if_neg (by omega), if_neg (by omega), if_pos hsend]
    refine ⟨_, rfl, ?_, ?_, ?_, ?_, ?_, ?_⟩
    · show decodeIntList (encodeIntList
          (((selectedOf env options excluded_ids filtered).map
            (fun t => (t, format_poll_answer t.name
              (get_thread_composition_tags t)))).map (fun td => td.1.id))) = _
      rw [List.map_map]
      exact decodeIntList_encodeIntList _
    · rw [hsel]
      split <;> omega
    · rw [hsel]
      split <;> omega
    · intro hlt
      rw [hsel, if_pos hlt]
    · intro hge
      unfold selectedOf
      rw [if_neg (by omega)]
    · show ((selectedOf env options excluded_ids filtered).map
          (fun t => (t, format_poll_answer t.name
            (get_thread_composition_tags t)))).map (fun td => td.2) = _
      rw [List.map_map]
      rfl

/-- C2 witness: with two surviving candidates and three requested options,
a successful creation persists a row whose decoded id list is exactly the
ids of the two selected threads, in order. -/
theorem poll_row_bounds_and_roundtrip_witness :
    2 ≤ (remainingOf []
        [fixtureThread 201 (("Alpha").toList),
         fixtureThread 202 (("Bravo").toList)]).length ∧
    (∃ row, (missionpoll_after_dedup [] 1 9 (fixtureEvent 11 990) [] [] 24 3 []
        [fixtureThread 201 (("Alpha").toList), fixtureThread 202 (("Bravo").toList)]
        fixtureCreateEnv).polls = [] ++ [row] ∧
      row_mission_thread_ids row =
        some ((selectedOf fixtureCreateEnv 3 []
          [fixtureThread 201 (("Alpha").toList),
           fixtureThread 202 (("Bravo").toList)]).map (fun t => t.id)) ∧
      2 ≤ (selectedOf fixtureCreateEnv 3 []
          [fixtureThread 201 (("Alpha").toList),
           fixtureThread 202 (("Bravo").toList)]).length ∧
      (selectedOf fixtureCreateEnv 3 []
          [fixtureThread 201 (("Alpha").toList),
           fixtureThread 202 (("Bravo").toList)]).length ≤ 10 ∧
      (3 < (remainingOf []
          [fixtureThread 201 (("Alpha").toList),
           fixtureThread 202 (("Bravo").toList)]).length →
        (selectedOf fixtureCreateEnv 3 []
            [fixtureThread 201 (("Alpha").toList),
             fixtureThread 202 (("Bravo").toList)]).length = 3) ∧
      ((remainingOf []
          [fixtureThread 201 (("Alpha").toList),
           fixtureThread 202 (("Bravo").toList)]).length ≤ 3 →
        selectedOf fixtureCreateEnv 3 []
            [fixtureThread 201 (("Alpha").toList),
             fixtureThread 202 (("Bravo").toList)] =
          remainingOf []
            [fixtureThread 201 (("Alpha").toList),
             fixtureThread 202 (("Bravo").toList)]) ∧
      (missionpoll_after_dedup [] 1 9 (fixtureEvent 11 990) [] [] 24 3 []
          [fixtureThread 201 (("Alpha").toList), fixtureThread 202 (("Bravo").toList)]
          fixtureCreateEnv).options_sent =
        (selectedOf fixtureCreateEnv 3 []
            [fixtureThread 201 (("Alpha").toList),
             fixtureThread 202 (("Bravo").toList)]).map
          (fun t => format_poll_answer t.name (get_thread_composition_tags t))) :=
  ⟨by decide,
   (poll_row_bounds_and_roundtrip [] 1 9 (fixtureEvent 11 990) [] [] 24 3 []
      [fixtureThread 201 (("Alpha").toList), fixtureThread 202 (("Bravo").toList)]
      fixtureCreateEnv (by decide) (by decide)
      (fun l => List.Perm.refl l)).2 (by decide) rfl⟩

/-- C8: when the target event was concurrently assigned (its name strips
to a non-empty string), resolution marks the poll completed with the
winning candidate id recorded but performs no event write: the events
table is returned unchanged, and the notice reports the skip. -/
theorem resolution_skips_assigned_event (polls : List PollRow)
    (events : List EventRow) (p : PollRow) (env : ResolveEnv)
    (vc : List Nat) (tids : List Nat) (th : MissionThread) (ev : EventRow)
    (hguild : env.guild_ok = true) (hchan : env.channel_ok = true)
    (hmsg : env.fetch_message = some (some vc))
    (hids : row_mission_thread_ids p = some tids)
    (hrange : winner_index vc tids.length env.rand < tids.length)
    (hth : env.winning_thread = some th)
    (hev : events.find? (fun e => e.id == p.target_event_id) = some ev)
    (hname : pyStrip ev.name ≠ []) :
    process_ended_poll polls events p env =
      ⟨mark_completed polls p.id
          (tids.getD (winner_index vc tids.length env.rand) 0),
        events, [ResolveNotice.alreadyAssigned]⟩ ∧
    (∀ q ∈ mark_completed polls p.id
        (tids.getD (winner_index vc tids.length env.rand) 0),
      q.id = p.id → q.status = PollStatus.completed ∧
        q.winning_thread_id =
          some (tids.getD (winner_index vc tids.length env.rand) 0)) := by
  constructor
  · simp only [process_ended_poll, hguild, hchan, hmsg, hids, hth, hev,
      Bool.not_true, Bool.false_eq_true, if_false, Option.getD_some]
    rw [if_neg (not_le.mpr hrange), if_pos hname]
  · intro q hq hqid
    unfold mark_completed at hq
    rcases List.mem_map.mp hq with ⟨r, hr, hfr⟩
    by_cases hbeq : (r.id == p.id) = true
    · rw [if_pos hbeq] at hfr
      rw [← hfr]
      exact ⟨rfl, rfl⟩
    · rw [if_neg hbeq] at hfr
      subst hfr
      rw [hqid] at hbeq
      simp at hbeq

/-- C8 witness: a concrete poll over threads `[101, 102]` with tallies
`[0, 2]` resolving into an event that was concurrently assigned. -/
theorem resolution_skips_assigned_event_witness :
    process_ended_poll [fixturePoll 1 11 none PollStatus.active]
        [{ fixtureEvent 11 990 with name := ("Occupied").toList }]
        (fixturePoll 1 11 none PollStatus.active) fixtureResolveEnv =
      ⟨mark_completed [fixturePoll 1 11 none PollStatus.active] 1
          (([101, 102] : List Nat).getD (winner_index [0, 2] 2 0) 0),
        [{ fixtureEvent 11 990 with name := ("Occupied").toList }],
        [ResolveNotice.alreadyAssigned]⟩ ∧
    (∀ q ∈ mark_completed [fixturePoll 1 11 none PollStatus.active] 1
        (([101, 102] : List Nat).getD (winner_index [0, 2] 2 0) 0),
      q.id = 1 → q.status = PollStatus.completed ∧
        q.winning_thread_id =
          some (([101, 102] : List Nat).getD (winner_index [0, 2] 2 0) 0)) :=
  resolution_skips_assigned_event [fixturePoll 1 11 none PollStatus.active]
    [{ fixtureEvent 11 990 with name := ("Occupied").toList }]
    (fixturePoll 1 11 none PollStatus.active) fixtureResolveEnv
    [0, 2] [101, 102] (fixtureThread 101 (("Alpha").toList))
    { fixtureEvent 11 990 with name := ("Occupied").toList }
    rfl rfl rfl (by decide) (by decide) rfl (by decide) (by decide)

/-- C9: terminal statuses are absorbing — none of the three repository
write operations (insert, mark-completed, mark-failed) ever moves an
existing row out of `completed`/`failed` back to `active` — and a
monitoring tick over a table whose polls are all terminal selects nothing,
resolves nothing, writes nothing, and emits no notification. -/
theorem terminal_absorbing_tick_noop :
    (∀ (polls : List PollRow) (op : RepoOp) (i : Nat) (r r' : PollRow),
      polls[i]? = some r → r.status ≠ PollStatus.active →
      (applyRepoOp polls op)[i]? = some r' → r'.status ≠ PollStatus.active) ∧
    (∀ (polls : List PollRow) (events : List EventRow) (now : Int)
        (env : Nat → ResolveEnv),
      (∀ p ∈ polls, p.status ≠ PollStatus.active) →
      tick polls events now env = ⟨polls, events, []⟩) := by
  constructor
  · intro polls op i r r' hget hterm hget'
    have hi : i < polls.length := by
      by_contra hcon
      rw [List.getElem?_eq_none (Nat.le_of_not_lt hcon)] at hget
      exact Option.noConfusion hget
    cases op with
    | create a new_id =>
      have happ : (applyRepoOp polls (RepoOp.create a new_id))[i]? = polls[i]? := by
        unfold applyRepoOp
        rw [List.getElem?_append, if_pos hi]
      rw [happ, hget] at hget'
      have heq : r = r' := Option.some.inj hget'
      rw [← heq]
      exact hterm
    | complete poll_id w =>
      have hmap : (applyRepoOp polls (RepoOp.complete poll_id w))[i]? =
          Option.map (fun p => if (p.id == poll_id) = true then
            { p with status := PollStatus.completed, winning_thread_id := some w }
          else p) polls[i]? := by
        unfold applyRepoOp mark_completed
        exact List.getElem?_map _ polls i
      rw [hmap, hget, Option.map_some'] at hget'
      have hr' : (if (r.id == poll_id) = true then
          { r with status := PollStatus.completed, winning_thread_id := some w }
        else r) = r' := Option.some.inj hget'
      by_cases hbeq : (r.id == poll_id) = true
      · rw [if_pos hbeq] at hr'
        rw [← hr']
        intro hcon
        exact PollStatus.noConfusion hcon
      · rw [if_neg hbeq] at hr'
        rw [← hr']
        exact hterm
    | fail poll_id =>
      have hmap : (applyRepoOp polls (RepoOp.fail poll_id))[i]? =
          Option.map (fun p => if (p.id == poll_id) = true then
            { p with status := PollStatus.failed } else p) polls[i]? := by
        unfold applyRepoOp mark_failed
        exact List.getElem?_map _ polls i
      rw [hmap, hget, Option.map_some'] at hget'
      have hr' : (if (r.id == poll_id) = true then
          { r with status := PollStatus.failed } else r) = r' :=
        Option.some.inj hget'
      by_cases hbeq : (r.id == poll_id) = true
      · rw [if_pos hbeq] at hr'
        rw [← hr']
        intro hcon
        exact PollStatus.noConfusion hcon
      · rw [if_neg hbeq] at hr'
        rw [← hr']
        exact hterm
  · intro polls events now env hterm
    unfold tick
    have hempty : get_active_polls polls = [] := by
      unfold get_active_polls
      have hfil : polls.filter (fun p => p.status == PollStatus.active) = [] := by
        rw [List.filter_eq_nil_iff]
        intro p hp
        simpa using hterm p hp
      rw [hfil, List.mergeSort_nil]
    rw [hempty]
    rfl

/-- C9 witness: a failed-mark against a completed row keeps it terminal,
and a tick over a single completed poll is a no-op. -/
theorem terminal_absorbing_tick_noop_witness :
    ((fixturePoll 1 11 (some 101) PollStatus.failed).status ≠ PollStatus.active) ∧
    tick [fixturePoll 1 11 (some 101) PollStatus.completed] [] 0
        (fun _ => fixtureResolveEnv) =
      ⟨[fixturePoll 1 11 (some 101) PollStatus.completed], [], []⟩ :=
  ⟨terminal_absorbing_tick_noop.1 [fixturePoll 1 11 (some 101) PollStatus.completed]
      (RepoOp.fail 1) 0 (fixturePoll 1 11 (some 101) PollStatus.completed)
      (fixturePoll 1 11 (some 101) PollStatus.failed) rfl (by decide) (by decide),
   terminal_absorbing_tick_noop.2 [fixturePoll 1 11 (some 101) PollStatus.completed]
      [] 0 (fun _ => fixtureResolveEnv) (by decide)⟩

end GolBot
